import Mathlib

/-!
Verification of the VocaGlyph platform boundary (`accessibility_darwin.h`,
`keystroke_darwin.h`).  The repository ships only the two header files:
the declared contracts of `get_active_context_text`, `post_keystrokes`
and `is_accessibility_trusted`.  Since no function bodies exist in the
sources, each operation below is modelled from the specification's words
as an explicit state-passing function over the OS-owned environment.
C text buffers are modelled as lists of characters in which a NUL byte
terminates the content.
-/

/-- The NUL character that terminates a C text buffer. -/
def NUL : Char := Char.ofNat 0

/-- A C text buffer is null-terminated when it contains a NUL byte. -/
def isNullTerminated (buf : List Char) : Prop := NUL ∈ buf

instance (buf : List Char) : Decidable (isNullTerminated buf) := by
  unfold isNullTerminated
  infer_instance

/-- The character content of a C text buffer: the bytes before the first NUL. -/
def cStrContent (buf : List Char) : List Char :=
  buf.takeWhile (fun c => c ≠ NUL)

/-- Modelled from the spec: the OS-owned environment visible through the two
headers.  The repository provides no implementation bodies, so the externally
owned facts the spec names are carried explicitly: the accessibility trust
boolean, the text preceding the cursor in the focused element (`none` when no
element is focused or the focused element exposes no text attribute), a flag
for lower-level attribute-retrieval failure, whether the event framework can
construct event objects, whether the focused target consumes injected events,
how many consent prompts have been surfaced, the global injected-event stream,
and what the target actually rendered. -/
structure OSState where
  trusted : Bool
  focused : Option (List Char)
  attrFailure : Bool
  eventOk : Bool
  targetAccepts : Bool
  promptsShown : Nat
  events : List Char
  consumed : List Char
deriving Repr, DecidableEq

/-- Modelled from the spec: `get_active_context_text(max_chars)` from
`accessibility_darwin.h` (body absent from the sources).  A read-only query:
on success it returns a null-terminated buffer holding at most `max_chars`
characters immediately preceding the cursor in the focused element; a negative
bound, denied accessibility permission, a lower-level attribute failure, and
the absence of a focused element or text attribute all collapse to the single
absent result. -/
def get_active_context_text (max_chars : Int) (s : OSState) :
    Option (List Char) :=
  if max_chars < 0 ∨ s.trusted = false ∨ s.attrFailure = true ∨
      s.focused = none then
    none
  else
    let t := s.focused.getD []
    let content := t.takeWhile (fun c => c ≠ NUL)
    let kept := content.drop (content.length - max_chars.toNat)
    some (kept ++ [NUL])

/-- Modelled from the spec: `post_keystrokes(text)` from `keystroke_darwin.h`
(body absent from the sources).  The content of the borrowed buffer is the
text before its first NUL; an empty content is a no-op returning `true`;
otherwise the result reports whether the event objects could be constructed
and dispatched, the dispatched characters are appended to the global input
stream, and the target renders them only if it accepts input — the return
value does not depend on that. -/
def post_keystrokes (text : List Char) (s : OSState) : Bool × OSState :=
  let content := text.takeWhile (fun c => c ≠ NUL)
  if content = [] then
    (true, s)
  else if s.eventOk = true then
    (true, { s with
      events := s.events ++ content,
      consumed := s.consumed ++ (if s.targetAccepts = true then content else []) })
  else
    (false, s)

/-- Modelled from the spec: `is_accessibility_trusted(prompt)` from
`keystroke_darwin.h` (body absent from the sources).  Always returns the
current OS trust boolean; when `prompt` is set and trust is absent it
additionally surfaces the OS consent UI, counted in `promptsShown`. -/
def is_accessibility_trusted (prompt : Bool) (s : OSState) : Bool × OSState :=
  if prompt = true ∧ s.trusted = false then
    (s.trusted, { s with promptsShown := s.promptsShown + 1 })
  else
    (s.trusted, s)

/-- A sample environment used by the concrete witnesses below. -/
def sampleState : OSState :=
  ⟨true, some (['a', 'b', 'c']), false, true, true, 0, [], []⟩

/-- An environment in which accessibility trust is denied. -/
def deniedState : OSState :=
  ⟨false, some (['a', 'b', 'c']), false, true, true, 0, [], []⟩

theorem cStrContent_append_nul (c : List Char) (hc : ∀ x ∈ c, x ≠ NUL) :
    cStrContent (c ++ [NUL]) = c := by
  unfold cStrContent
  induction c with
  | nil =>
      rw [List.nil_append, List.takeWhile_cons, if_neg (by simp)]
  | cons a c ih =>
      have ha : a ≠ NUL := hc a (List.mem_cons_self a c)
      have ih2 := ih (fun x hx => hc x (List.mem_cons_of_mem a hx))
      rw [List.cons_append, List.takeWhile_cons, if_pos (by simp [ha]), ih2]

theorem mem_takeWhile_ne_nul (t : List Char) (k : Nat) :
    ∀ x ∈ (t.takeWhile (fun c => c ≠ NUL)).drop k, x ≠ NUL := by
  intro x hx
  have hx2 : x ∈ t.takeWhile (fun c => decide (c ≠ NUL)) :=
    List.mem_of_mem_drop hx
  have hp := List.mem_takeWhile_imp hx2
  simpa using hp

/-- Claim C1: for every `max_chars ≥ 0`, a non-absent result of
`get_active_context_text` is a null-terminated text buffer whose content has
at most `max_chars` characters. -/
theorem C1_context_result_bounded_and_terminated
    (max_chars : Int) (s : OSState) (buf : List Char)
    (_hm : 0 ≤ max_chars)
    (hr : get_active_context_text max_chars s = some buf) :
    isNullTerminated buf ∧ (cStrContent buf).length ≤ max_chars.toNat := by
  unfold get_active_context_text at hr
  by_cases hC : (max_chars < 0 ∨ s.trusted = false ∨ s.attrFailure = true ∨
      s.focused = none)
  · simp [hC] at hr
  · rw [if_neg hC] at hr
    simp only [Option.some.injEq] at hr
    subst hr
    constructor
    · exact List.mem_append_right _ (List.mem_singleton_self NUL)
    · rw [cStrContent_append_nul _ (mem_takeWhile_ne_nul _ _)]
      simp [List.length_drop]
      omega

/-- Concrete instantiation of claim C1's theorem. -/
theorem C1_witness :
    (0 : Int) ≤ 2 ∧
      (isNullTerminated (['b', 'c', NUL]) ∧
        (cStrContent (['b', 'c', NUL])).length ≤ (2 : Int).toNat) :=
  ⟨by decide,
    C1_context_result_bounded_and_terminated 2 sampleState ['b', 'c', NUL]
      (by decide) (by decide)⟩

/-- Claim C2: every failure mode of `get_active_context_text` — permission
denied, no focused element or no text attribute, or a lower-level attribute
failure — is surfaced as the single absent result, so two failing
environments are indistinguishable from the return value alone. -/
theorem C2_failures_collapse_to_absent
    (max_chars : Int) (s : OSState)
    (hfail : s.trusted = false ∨ s.focused = none ∨ s.attrFailure = true) :
    get_active_context_text max_chars s = none ∧
      ∀ s2 : OSState,
        (s2.trusted = false ∨ s2.focused = none ∨ s2.attrFailure = true) →
          get_active_context_text max_chars s2 =
            get_active_context_text max_chars s := by
  have collapse : ∀ s0 : OSState,
      (s0.trusted = false ∨ s0.focused = none ∨ s0.attrFailure = true) →
        get_active_context_text max_chars s0 = none := by
    intro s0 h0
    unfold get_active_context_text
    rcases h0 with h | h | h <;> simp [h]
  refine ⟨collapse s hfail, ?_⟩
  intro s2 h2
  rw [collapse s2 h2, collapse s hfail]

/-- Concrete instantiation of claim C2's theorem. -/
theorem C2_witness :
    (deniedState.trusted = false ∨ deniedState.focused = none ∨
        deniedState.attrFailure = true) ∧
      (get_active_context_text 5 deniedState = none ∧
        ∀ s2 : OSState,
          (s2.trusted = false ∨ s2.focused = none ∨ s2.attrFailure = true) →
            get_active_context_text 5 s2 =
              get_active_context_text 5 deniedState) :=
  ⟨Or.inl rfl, C2_failures_collapse_to_absent 5 deniedState (Or.inl rfl)⟩

theorem post_keystrokes_fst (text : List Char) (s : OSState) :
    (post_keystrokes text s).fst =
      (decide (text.takeWhile (fun c => c ≠ NUL) = []) || s.eventOk) := by
  unfold post_keystrokes
  by_cases hc : text.takeWhile (fun c => c ≠ NUL) = []
  · rw [if_pos hc, hc]
    simp
  · rw [if_neg hc, decide_eq_false hc, Bool.false_or]
    by_cases he : s.eventOk = true
    · rw [if_pos he, he]
    · rw [if_neg he]
      simp only [Bool.not_eq_true] at he
      rw [he]

/-- Claim C3: `post_keystrokes` returns `true` exactly when the event objects
were successfully constructed and dispatched (or no events were needed), and
the returned boolean is independent of whether the target application accepts
the injected text. -/
theorem C3_post_success_iff_events_constructed (text : List Char) (s : OSState) :
    ((post_keystrokes text s).fst = true ↔
        (text.takeWhile (fun c => c ≠ NUL) = [] ∨ s.eventOk = true)) ∧
      ∀ b : Bool,
        (post_keystrokes text { s with targetAccepts := b }).fst =
          (post_keystrokes text s).fst := by
  constructor
  · rw [post_keystrokes_fst]
    simp
  · intro b
    rw [post_keystrokes_fst, post_keystrokes_fst]

/-- Claim C4: querying trust with `prompt = true` while trust is already
granted returns `true` and leaves the environment untouched (no UI prompt). -/
theorem C4_prompt_noop_when_trusted (s : OSState) (h : s.trusted = true) :
    is_accessibility_trusted true s = (true, s) := by
  unfold is_accessibility_trusted
  simp [h]

/-- Concrete instantiation of claim C4's theorem. -/
theorem C4_witness :
    sampleState.trusted = true ∧
      is_accessibility_trusted true sampleState = (true, sampleState) :=
  ⟨rfl, C4_prompt_noop_when_trusted sampleState rfl⟩

/-- Claim C5: querying trust with `prompt = false` is a pure boolean read of
the current trust state with no side effect on the environment. -/
theorem C5_no_prompt_is_pure_read (s : OSState) :
    is_accessibility_trusted false s = (s.trusted, s) := by
  unfold is_accessibility_trusted
  simp

/-- Claim C6: posting a buffer with empty content (an empty C string) returns
`true` and performs no side effect: the environment is unchanged and no event
is injected. -/
theorem C6_empty_post_is_noop (text : List Char) (s : OSState)
    (h : text.takeWhile (fun c => c ≠ NUL) = []) :
    post_keystrokes text s = (true, s) := by
  unfold post_keystrokes
  rw [if_pos h]

/-- Concrete instantiation of claim C6's theorem. -/
theorem C6_witness :
    ([NUL].takeWhile (fun c => c ≠ NUL) = []) ∧
      post_keystrokes [NUL] sampleState = (true, sampleState) :=
  ⟨by decide, C6_empty_post_is_noop [NUL] sampleState (by decide)⟩

/-- Claim C8: the boolean returned by `is_accessibility_trusted` is exactly
the OS trust state at call time, independent of the `prompt` argument. -/
theorem C8_trust_value_independent_of_prompt (s : OSState) (p q : Bool) :
    (is_accessibility_trusted p s).fst = s.trusted ∧
      (is_accessibility_trusted p s).fst = (is_accessibility_trusted q s).fst := by
  unfold is_accessibility_trusted
  split_ifs <;> simp

/-- Modelled from the spec: the caller-visible allocation state backing the
ownership contract of `get_active_context_text` (its body is absent from the
sources).  An address is an index into a list of cells; `none` marks a cell
that is unallocated or already released. -/
structure Heap where
  bufs : List (Option (List Char))
deriving Repr, DecidableEq

/-- The buffer allocated at `addr`, when any. -/
def Heap.lookup (h : Heap) (addr : Nat) : Option (List Char) :=
  (h.bufs[addr]?).join

/-- Modelled from the spec: the C standard deallocator `free` acting on this
heap.  Releasing an allocated cell empties it; releasing an unallocated
address is invalid and yields no heap. -/
def Heap.free (h : Heap) (addr : Nat) : Option Heap :=
  match h.lookup addr with
  | none => none
  | some _ => some ⟨h.bufs.set addr none⟩

/-- Modelled from the spec: the allocating boundary of
`get_active_context_text`: on success a fresh cell holding the result buffer
is appended to the heap and its address handed to the caller; on failure the
heap is untouched and the result absent. -/
def get_active_context_text_alloc (max_chars : Int) (s : OSState) (h : Heap) :
    Option Nat × Heap :=
  match get_active_context_text max_chars s with
  | none => (none, h)
  | some buf => (some h.bufs.length, ⟨h.bufs ++ [some buf]⟩)

/-- Modelled from the spec: `post_keystrokes` reading the caller-owned,
borrowed buffer at `addr`; the heap is passed through and no reference to the
buffer is kept in the resulting environment. -/
def post_keystrokes_mem (addr : Nat) (h : Heap) (s : OSState) :
    Bool × OSState × Heap :=
  match h.lookup addr with
  | none => (false, s, h)
  | some buf => ((post_keystrokes buf s).fst, (post_keystrokes buf s).snd, h)

/-- An empty heap used by the concrete witnesses below. -/
def emptyHeap : Heap := ⟨[]⟩

/-- The heap obtained after one successful context read into `emptyHeap`. -/
def allocatedHeap : Heap := ⟨[some (['b', 'c', NUL])]⟩

/-- Claim C7: on success `get_active_context_text` hands the caller a freshly
allocated buffer: its address was unallocated before the call, is allocated
after it, and every other cell of the heap is untouched, so the callee shares
no previously existing reference to it. -/
theorem C7_context_buffer_fresh_and_owned
    (max_chars : Int) (s : OSState) (h h2 : Heap) (addr : Nat)
    (hr : get_active_context_text_alloc max_chars s h = (some addr, h2)) :
    h.lookup addr = none ∧
      (∃ buf, h2.lookup addr = some buf) ∧
      (∀ a, a ≠ addr → h2.lookup a = h.lookup a) := by
  unfold get_active_context_text_alloc at hr
  cases hg : get_active_context_text max_chars s with
  | none =>
      rw [hg] at hr
      simp at hr
  | some buf =>
      rw [hg] at hr
      simp only [Prod.mk.injEq, Option.some.injEq] at hr
      obtain ⟨rfl, rfl⟩ := hr
      refine ⟨?_, ⟨buf, ?_⟩, ?_⟩
      · unfold Heap.lookup
        rw [List.getElem?_eq_none (le_refl _)]
        rfl
      · unfold Heap.lookup
        rw [List.getElem?_concat_length]
        rfl
      · intro a ha
        unfold Heap.lookup
        rw [List.getElem?_append]
        by_cases hlt : a < h.bufs.length
        · rw [if_pos hlt]
        · rw [if_neg hlt]
          have hgt : h.bufs.length < a :=
            lt_of_le_of_ne (not_lt.mp hlt) (Ne.symm ha)
          have hone : ([some buf] : List (Option (List Char)))[a - h.bufs.length]? = none :=
            List.getElem?_eq_none (by simp; omega)
          have hnone : h.bufs[a]? = none := List.getElem?_eq_none (by omega)
          rw [hone, hnone]

/-- Concrete instantiation of claim C7's theorem. -/
theorem C7_witness :
    (get_active_context_text_alloc 2 sampleState emptyHeap =
        (some 0, allocatedHeap)) ∧
      (emptyHeap.lookup 0 = none ∧
        (∃ buf, allocatedHeap.lookup 0 = some buf) ∧
        (∀ a, a ≠ 0 → allocatedHeap.lookup a = emptyHeap.lookup a)) :=
  ⟨rfl,
    C7_context_buffer_fresh_and_owned 2 sampleState emptyHeap allocatedHeap 0
      rfl⟩

/-- Claim C9: `post_keystrokes` never writes to caller-visible memory: the
whole heap — in particular the borrowed input text buffer — is byte-for-byte
identical before and after the call. -/
theorem C9_post_keystrokes_borrows_buffer (addr : Nat) (h : Heap) (s : OSState) :
    (post_keystrokes_mem addr h s).snd.snd = h := by
  unfold post_keystrokes_mem
  cases hl : h.lookup addr <;> rfl

/-- Claim C10: the documented deallocation path for a buffer returned by
`get_active_context_text` is `free`: releasing the returned address with
`free` is valid, leaves the address unallocated, and touches no other
allocation. -/
theorem C10_free_releases_context_buffer
    (max_chars : Int) (s : OSState) (h h2 : Heap) (addr : Nat)
    (hr : get_active_context_text_alloc max_chars s h = (some addr, h2)) :
    ∃ h3 : Heap, h2.free addr = some h3 ∧ h3.lookup addr = none ∧
      ∀ a, a ≠ addr → h3.lookup a = h2.lookup a := by
  unfold get_active_context_text_alloc at hr
  cases hg : get_active_context_text max_chars s with
  | none =>
      rw [hg] at hr
      simp at hr
  | some buf =>
      rw [hg] at hr
      simp only [Prod.mk.injEq, Option.some.injEq] at hr
      obtain ⟨rfl, rfl⟩ := hr
      have hlen : h.bufs.length < (h.bufs ++ [some buf]).length := by
        simp
      have hl2 : Heap.lookup ⟨h.bufs ++ [some buf]⟩ h.bufs.length = some buf := by
        unfold Heap.lookup
        rw [List.getElem?_concat_length]
        rfl
      refine ⟨⟨(h.bufs ++ [some buf]).set h.bufs.length none⟩, ?_, ?_, ?_⟩
      · unfold Heap.free
        rw [hl2]
      · unfold Heap.lookup
        rw [List.getElem?_set_eq_of_lt none hlen]
        rfl
      · intro a ha
        unfold Heap.lookup
        rw [List.getElem?_set_ne (Ne.symm ha)]

/-- Concrete instantiation of claim C10's theorem. -/
theorem C10_witness :
    (get_active_context_text_alloc 2 sampleState emptyHeap =
        (some 0, allocatedHeap)) ∧
      ∃ h3 : Heap, allocatedHeap.free 0 = some h3 ∧ h3.lookup 0 = none ∧
        ∀ a, a ≠ 0 → h3.lookup a = allocatedHeap.lookup a :=
  ⟨rfl,
    C10_free_releases_context_buffer 2 sampleState emptyHeap allocatedHeap 0
      rfl⟩
